import Mathlib

/-!
Verification of pubtools-quay signature handling.

This development embeds the functions of
src/pubtools/_quay/signature_handler.py as Lean definitions and proves
the specified properties about them.  Python strings are modelled as
lists of unicode code points (PyStr), Python dicts built from key/value
pairs as last-wins association lookups, raised exceptions as Except
values.  The asynchronous claim/response correlation engine
(ManifestClaimsHandler, file manifest_claims_handler.py) is not part of
the available sources, so it is modelled from the specification text;
those definitions carry a doc comment starting with
"Modelled from the spec:".
-/

/-- A Python string, modelled as its list of unicode code points. -/
abbrev PyStr : Type := List Nat

/-- Converts a Lean string literal to its code-point model. -/
def str2py (s : String) : PyStr := s.data.map Char.toNat

/-- A claim message as constructed by create_manifest_claim_message:
the dict with keys sig_key_id, claim_file, pub_task_id, request_id,
manifest_digest, repo, image_name, docker_reference, created. -/
structure ClaimMessage where
  sig_key_id : PyStr
  claim_file : PyStr
  pub_task_id : PyStr
  request_id : PyStr
  manifest_digest : PyStr
  repo : PyStr
  image_name : PyStr
  docker_reference : PyStr
  created : PyStr
deriving DecidableEq

/-- A signature message received from RADAS, with the fields read by
upload_signatures_to_pyxis and validate_radas_messages: request_id,
manifest_digest, signed_claim and the error list. -/
structure SigMessage where
  request_id : PyStr
  manifest_digest : PyStr
  signed_claim : PyStr
  errors : List PyStr
deriving DecidableEq

/-- An existing signature as returned by Pyxis (get_signatures_from_pyxis),
with the fields read by filter_claim_messages. -/
structure ExistingSig where
  reference : PyStr
  manifest_digest : PyStr
  sig_key_id : PyStr
deriving DecidableEq

/-- Exceptions raised by the embedded functions: KeyError from the
claim_messages_by_id dict lookup, IndexError from the [0] selection on an
empty list, and SigningError (which records the failed/total counts used
in its message). -/
inductive PyError where
  | keyError
  | indexError
  | signingError (failed : Nat) (total : Nat)
deriving DecidableEq

/-- Recognizes a SigningError result. -/
def PyError.isSigningErr : PyError → Bool
  | .signingError _ _ => true
  | _ => false

/-- Recognizes an Except value that is a raised SigningError. -/
def raisesSigningErr : Except PyError Unit → Bool
  | .error e => e.isSigningErr
  | .ok _ => false

/-- The key under which filter_claim_messages indexes an existing Pyxis
signature: the triple (reference, manifest_digest, sig_key_id). -/
def sigTriple (s : ExistingSig) : PyStr × PyStr × PyStr :=
  (s.reference, s.manifest_digest, s.sig_key_id)

/-- The key computed for a claim message in filter_claim_messages:
the triple (docker_reference, manifest_digest, sig_key_id). -/
def msgTriple (m : ClaimMessage) : PyStr × PyStr × PyStr :=
  (m.docker_reference, m.manifest_digest, m.sig_key_id)

/-- Embeds SignatureHandler.filter_claim_messages, lines 207-244: index
the existing signatures by their (reference, digest, key) triple, then
keep exactly those claim messages whose own triple is not among the
indexed keys, preserving input order.  The Pyxis query that produces
existing_signatures is an external call; its result is a parameter. -/
def filter_claim_messages (claim_messages : List ClaimMessage)
    (existing_signatures : List ExistingSig) : List ClaimMessage :=
  let keys := existing_signatures.map sigTriple
  claim_messages.foldl
    (fun acc m => if msgTriple m ∈ keys then acc else acc ++ [m]) []

/-- Embeds the dict comprehension
dict((m.request_id, m) for m in claim_mesages) followed by a key lookup:
a later entry with the same key overwrites an earlier one, so the lookup
returns the last matching message, or raises KeyError (none) if no
message has the requested id. -/
def claimById (claim_messages : List ClaimMessage) (rid : PyStr) :
    Option ClaimMessage :=
  claim_messages.foldl
    (fun acc m => if m.request_id = rid then some m else acc) none

/-- A record POSTed to Pyxis by upload_signatures_to_pyxis. -/
structure PyxisSignature where
  manifest_digest : PyStr
  reference : PyStr
  repository : PyStr
  sig_key_id : PyStr
  signature_data : PyStr
deriving DecidableEq

/-- Embeds the signature-building loop of upload_signatures_to_pyxis,
lines 309-324: for each signature message in order, look its request_id
up in the claim dict (KeyError if absent) and append the Pyxis record
combining fields of the signature message and the claim message. -/
def buildSignatures (claim_messages : List ClaimMessage) :
    List SigMessage → Except PyError (List PyxisSignature)
  | [] => .ok []
  | m :: rest =>
    match claimById claim_messages m.request_id with
    | none => .error .keyError
    | some c =>
      match buildSignatures claim_messages rest with
      | .error e => .error e
      | .ok sigs =>
        .ok ({ manifest_digest := m.manifest_digest,
               reference := c.docker_reference,
               repository := c.image_name,
               sig_key_id := c.sig_key_id,
               signature_data := m.signed_claim } :: sigs)

/-- Lexicographic order on code-point lists, modelling Python string
comparison used by sorted(..., key=lambda msg: msg[\x22request_id\x22]). -/
def pyStrLe : PyStr → PyStr → Bool
  | [], _ => true
  | _ :: _, [] => false
  | a :: xs, b :: ys => if a < b then true else if a = b then pyStrLe xs ys else false

/-- Embeds upload_signatures_to_pyxis, lines 291-341: sort the signature
messages by request_id, build the Pyxis records (KeyError on a request_id
absent from the claim messages), and hand them to the upload entrypoint.
The external entrypoint invocation is out of scope; the function returns
the list of records it would upload. -/
def upload_signatures_to_pyxis (claim_messages : List ClaimMessage)
    (signature_messages : List SigMessage) : Except PyError (List PyxisSignature) :=
  buildSignatures claim_messages
    (signature_messages.mergeSort (fun a b => pyStrLe a.request_id b.request_id))

/-- Embeds the counting loop of validate_radas_messages, lines 357-366:
for each signature message with a non-empty error list, select the first
claim message with the same request_id (IndexError if there is none, from
the [0] subscript) and count the message as failed. -/
def countFailed (claim_messages : List ClaimMessage) :
    List SigMessage → Except PyError Nat
  | [] => .ok 0
  | m :: rest =>
    if m.errors = [] then countFailed claim_messages rest
    else
      match (claim_messages.filter (fun c => c.request_id = m.request_id)).head? with
      | none => .error .indexError
      | some _ =>
        match countFailed claim_messages rest with
        | .error e => .error e
        | .ok n => .ok (n + 1)

/-- Embeds validate_radas_messages, lines 343-373: count the failed
messages; if any failed, raise SigningError with the failed/total counts. -/
def validate_radas_messages (claim_messages : List ClaimMessage)
    (signature_messages : List SigMessage) : Except PyError Unit :=
  match countFailed claim_messages signature_messages with
  | .error e => .error e
  | .ok n => if n ≠ 0 then .error (.signingError n claim_messages.length) else .ok ()

/-- Modelled from the spec: the numeric policy of the correlation engine
(ManifestClaimsHandler, whose source file manifest_claims_handler.py is
not available) — the throttle (max concurrent in-flight claims) and the
retry budget (max retry passes). -/
structure MCHConfig where
  throttle : Nat
  retry : Nat
deriving DecidableEq

/-- Modelled from the spec: the run states of the correlation state
machine, INIT folded into RUNNING (INIT only loads the batch). -/
inductive RunStatus where
  | running
  | complete
  | timedOut
  | failed
deriving DecidableEq

/-- Modelled from the spec: the Run State of the correlation engine —
pending correlation ids (not yet sent, kept in original batch order),
in-flight ids (sent, awaiting response), completed ids each paired with
its ResponseRecord, the number of retry passes performed so far (the
spec retries all unanswered claims together, so the per-request retry
counters all equal the run-level pass count), and the machine status. -/
structure RunState where
  pending : List PyStr
  inflight : List PyStr
  completed : List (PyStr × SigMessage)
  retryCount : Nat
  status : RunStatus
deriving DecidableEq

/-- Modelled from the spec: the events the correlation engine reacts to —
a dispatcher admission pass, arrival of one inbound response, expiry of
the watchdog, a transport failure reported by the send callback, and the
completion check of the run loop. -/
inductive MCHEvent where
  | dispatch
  | receive (r : SigMessage)
  | watchdogExpire
  | transportFail
  | checkComplete
deriving DecidableEq

/-- Modelled from the spec: the initial Run State — pending holds the
whole batch, the other sets are empty, no retry pass performed. -/
def initState (batch : List PyStr) : RunState :=
  { pending := batch, inflight := [], completed := [], retryCount := 0,
    status := .running }

/-- Removes the first occurrence of x from l (used by the receive
transition to take a correlation id out of the in-flight set). -/
def eraseFirst (l : List PyStr) (x : PyStr) : List PyStr :=
  match l with
  | [] => []
  | y :: ys => if y = x then ys else y :: eraseFirst ys x

/-- Modelled very closely from the spec (sections 4.1-4.3): one
transition of the correlation engine.  Terminal states are final.  In
RUNNING: dispatch moves claims from pending to in-flight in original
batch order until pending is empty or the throttle is reached; a received
response whose correlation id is in-flight moves that id to completed and
stores the record, any other response leaves the state unchanged;
watchdog expiry either starts a retry pass (all in-flight ids return to
pending, pass counter incremented) when budget remains, or makes the run
TIMED_OUT; a transport failure makes it FAILED; the completion check
makes it COMPLETE when pending and in-flight are both empty. -/
def mchStep (cfg : MCHConfig) (ev : MCHEvent) (s : RunState) : RunState :=
  match s.status with
  | .running =>
    match ev with
    | .dispatch =>
      let k := cfg.throttle - s.inflight.length
      { s with pending := s.pending.drop k,
               inflight := s.inflight ++ s.pending.take k }
    | .receive r =>
      if r.request_id ∈ s.inflight then
        { s with inflight := eraseFirst s.inflight r.request_id,
                 completed := s.completed ++ [(r.request_id, r)] }
      else s
    | .watchdogExpire =>
      if s.retryCount < cfg.retry then
        { s with pending := s.inflight ++ s.pending, inflight := [],
                 retryCount := s.retryCount + 1 }
      else { s with status := .timedOut }
    | .transportFail => { s with status := .failed }
    | .checkComplete =>
      if s.pending = [] ∧ s.inflight = [] then { s with status := .complete }
      else s
  | _ => s

/-- Modelled from the spec: the Run States reachable from the initial
state of a given batch under any sequence of events. -/
inductive Reachable (cfg : MCHConfig) (batch : List PyStr) : RunState → Prop where
  | init : Reachable cfg batch (initState batch)
  | step (ev : MCHEvent) {s : RunState} :
      Reachable cfg batch s → Reachable cfg batch (mchStep cfg ev s)

/-- Modelled from the spec: the timeout error surfaced on TIMED_OUT —
it carries the completed ResponseRecords so far and the correlation ids
that never received a response. -/
structure TimeoutErr where
  completed : List (PyStr × SigMessage)
  unanswered : List PyStr
deriving DecidableEq

/-- Modelled from the spec: get_signatures_from_radas (lines 246-289)
runs the correlation engine and returns claims_handler.received_messages
(the completed set); if the engine ends TIMED_OUT it raises the timeout
error to its caller, carrying the completed records and the ids that
never received a response. -/
def get_signatures_from_radas (final : RunState) :
    Except TimeoutErr (List (PyStr × SigMessage)) :=
  match final.status with
  | .timedOut =>
    .error { completed := final.completed,
             unanswered := final.pending ++ final.inflight }
  | _ => .ok final.completed

/-- The correlation ids present in a Run State, over all three sets. -/
def stateIds (s : RunState) : List PyStr :=
  s.pending ++ s.inflight ++ s.completed.map Prod.fst

/-- A sample configuration for concrete runs: throttle 2, one retry pass. -/
def cfgA : MCHConfig := { throttle := 2, retry := 1 }

/-- A sample batch of two correlation ids. -/
def batchA : List PyStr := [[0], [1]]

/-- A sample successful response for correlation id [i]. -/
def respA (i : Nat) : SigMessage :=
  { request_id := [i], manifest_digest := [7], signed_claim := [8], errors := [] }

/-- A concrete run prefix: one dispatch pass on batchA. -/
def runA1 : RunState := mchStep cfgA .dispatch (initState batchA)

/-- The run after the response for id [0] arrives. -/
def runA2 : RunState := mchStep cfgA (.receive (respA 0)) runA1

/-- The run after the response for id [1] also arrives. -/
def runA3 : RunState := mchStep cfgA (.receive (respA 1)) runA2

/-- The run after one watchdog expiry of runA1 (a retry pass). -/
def runB1 : RunState := mchStep cfgA .watchdogExpire runA1

/-- A concrete claim message with request id [9] and otherwise empty
fields, used to exercise the validation and upload paths. -/
def claimX : ClaimMessage :=
  { sig_key_id := [], claim_file := [], pub_task_id := [], request_id := [9],
    manifest_digest := [], repo := [], image_name := [], docker_reference := [],
    created := [] }

/-- A concrete RADAS response for request id [9] whose error list is
non-empty (a failed signing). -/
def badSig : SigMessage :=
  { request_id := [9], manifest_digest := [], signed_claim := [], errors := [[1]] }

/-- A concrete RADAS response for request id [9] with an empty error
list (a successful signing). -/
def noErrSig : SigMessage :=
  { request_id := [9], manifest_digest := [], signed_claim := [], errors := [] }

/-- The externally observable side effects of the signing workflows:
constructing claim messages (which queries the registry), querying the
signature store (Pyxis) for existing signatures, sending claim messages
to RADAS, and uploading new signatures to Pyxis. -/
inductive Effect where
  | constructClaims
  | querySigstore
  | sendToRadas (messages : List ClaimMessage)
  | uploadToPyxis
deriving DecidableEq

/-- Embeds ContainerSignatureHandler.sign_container_images, lines
439-470, as the list of external effects it performs paired with its
outcome.  signing_enabled is the truthiness of
docker_settings.get(..., False) for key docker_container_signing_enabled;
the claim messages constructed from the push items, the existing
signatures returned by Pyxis, and the RADAS responses are parameters
standing for external data.  When signing is not enabled the function
returns at once with no effects; when the filter leaves no claim
messages it returns right after the store query; otherwise it sends to
RADAS, validates, and uploads unless validation raised. -/
def sign_container_images (signing_enabled : Bool)
    (item_claims : List ClaimMessage) (existing : List ExistingSig)
    (radas : List SigMessage) : List Effect × Except PyError Unit :=
  if !signing_enabled then ([], .ok ())
  else
    let filtered := filter_claim_messages item_claims existing
    if filtered.length = 0 then ([.constructClaims, .querySigstore], .ok ())
    else
      match validate_radas_messages filtered radas with
      | .error e =>
        ([.constructClaims, .querySigstore, .sendToRadas filtered], .error e)
      | .ok _ =>
        ([.constructClaims, .querySigstore, .sendToRadas filtered,
          .uploadToPyxis], .ok ())

/-- Embeds OperatorSignatureHandler.sign_operator_images, lines 514-540,
as its effect trace: there is no Pyxis filtering; when signing is enabled
the claim messages are constructed, sent to RADAS, validated, and the
signatures uploaded unless validation raised; when it is not enabled the
function returns at once with no effects. -/
def sign_operator_images (signing_enabled : Bool)
    (claims : List ClaimMessage) (radas : List SigMessage) :
    List Effect × Except PyError Unit :=
  if !signing_enabled then ([], .ok ())
  else
    match validate_radas_messages claims radas with
    | .error e => ([.constructClaims, .sendToRadas claims], .error e)
    | .ok _ => ([.constructClaims, .sendToRadas claims, .uploadToPyxis], .ok ())

/-- An existing Pyxis signature whose triple matches claimX, so that
filtering removes claimX. -/
def exSigX : ExistingSig :=
  { reference := [], manifest_digest := [], sig_key_id := [] }

mutual

/-- A JSON value of the shapes used by the manifest claim: strings and
objects (ordered key/value fields, as Python dicts preserve insertion
order). -/
inductive Json where
  | str (s : List Nat)
  | obj (fields : Fields)
deriving DecidableEq

/-- The ordered field list of a JSON object. -/
inductive Fields where
  | nil
  | cons (key : List Nat) (val : Json) (rest : Fields)
deriving DecidableEq

end

/-- The code points of the four lowercase hex digits of v (v < 65536),
as produced by the \uXXXX escapes of json.dumps. -/
def hexDig (d : Nat) : Nat := if d < 10 then 48 + d else 87 + d

/-- Four-hex-digit rendering of a code unit. -/
def hex4 (v : Nat) : List Nat :=
  [hexDig (v / 4096 % 16), hexDig (v / 256 % 16), hexDig (v / 16 % 16),
   hexDig (v % 16)]

/-- Embeds the per-character escaping of json.dumps with its default
ensure_ascii=True: quote and backslash get two-character escapes,
printable ASCII (0x20-0x7e) passes through, the control characters with
shorthand escapes use them, every other character becomes \uXXXX (as a
surrogate pair when above 0xFFFF). -/
def escapeChar (c : Nat) : List Nat :=
  if c = 34 then [92, 34]
  else if c = 92 then [92, 92]
  else if 32 ≤ c ∧ c ≤ 126 then [c]
  else if c = 8 then [92, 98]
  else if c = 9 then [92, 116]
  else if c = 10 then [92, 110]
  else if c = 12 then [92, 102]
  else if c = 13 then [92, 114]
  else if c < 65536 then 92 :: 117 :: hex4 c
  else (92 :: 117 :: hex4 (55296 + (c - 65536) / 1024))
    ++ (92 :: 117 :: hex4 (56320 + (c - 65536) % 1024))

/-- Escapes every character of a string body. -/
def escapeStr : List Nat → List Nat
  | [] => []
  | c :: cs => escapeChar c ++ escapeStr cs

/-- Renders a JSON string with its surrounding quotes. -/
def dumpStr (s : List Nat) : List Nat := 34 :: (escapeStr s ++ [34])

mutual

/-- Embeds json.dumps with its default separators: objects render as
left brace, first field, the remaining fields each preceded by a comma
and a space, right brace; a field is its quoted key, a colon, a space
and its value. -/
def dumps : Json → List Nat
  | .str s => dumpStr s
  | .obj .nil => [123, 125]
  | .obj (.cons k v fs) =>
    123 :: (dumpStr k ++ (58 :: 32 :: dumps v) ++ dumpTail fs ++ [125])

/-- Renders the second and later fields of an object, each preceded by
a comma and a space. -/
def dumpTail : Fields → List Nat
  | .nil => []
  | .cons k v fs =>
    44 :: 32 :: (dumpStr k ++ (58 :: 32 :: dumps v) ++ dumpTail fs)

end

/-- A valid unicode code point as found in a Python str: in range and
not a lone surrogate. -/
def validCp (c : Nat) : Prop := c < 1114112 ∧ ¬(55296 ≤ c ∧ c ≤ 57343)

instance (c : Nat) : Decidable (validCp c) := by
  unfold validCp
  infer_instance

/-- A string all of whose code points are valid. -/
def ValidStr (s : List Nat) : Prop := ∀ c ∈ s, validCp c

instance (s : List Nat) : Decidable (ValidStr s) := by
  unfold ValidStr
  infer_instance

mutual

/-- Validity of every string occurring in a JSON value. -/
def validJ : Json → Prop
  | .str s => ValidStr s
  | .obj fs => validF fs

/-- Validity of every string occurring in a field list. -/
def validF : Fields → Prop
  | .nil => True
  | .cons k v fs => ValidStr k ∧ validJ v ∧ validF fs

end

mutual

/-- A size measure used as parser fuel: one unit per JSON node. -/
def sizeJ : Json → Nat
  | .str _ => 1
  | .obj fs => sizeF fs + 1

/-- Size of a field list. -/
def sizeF : Fields → Nat
  | .nil => 1
  | .cons _ v fs => sizeJ v + sizeF fs + 1

end

/-- The numeric value of a hex digit code point, if it is one. -/
def hexVal (c : Nat) : Option Nat :=
  if 48 ≤ c ∧ c ≤ 57 then some (c - 48)
  else if 97 ≤ c ∧ c ≤ 102 then some (c - 87)
  else if 65 ≤ c ∧ c ≤ 70 then some (c - 55)
  else none

/-- Reads four hex digits from the input. -/
def parseHex4 : List Nat → Option (Nat × List Nat)
  | c1 :: c2 :: c3 :: c4 :: rest =>
    match hexVal c1, hexVal c2, hexVal c3, hexVal c4 with
    | some v1, some v2, some v3, some v4 =>
      some (v1 * 4096 + v2 * 256 + v3 * 16 + v4, rest)
    | _, _, _, _ => none
  | _ => none

/-- Prepends a decoded character to a string-parse result. -/
def consResult (c : Nat) :
    Option (List Nat × List Nat) → Option (List Nat × List Nat)
  | some (s, r) => some (c :: s, r)
  | none => none

/-- Parses the body of a JSON string (after the opening quote) up to and
including the closing quote, decoding escapes and recombining surrogate
pairs, as json.loads does.  Fuel bounds the number of decoded
characters. -/
def parseStringBody : Nat → List Nat → Option (List Nat × List Nat)
  | 0, _ => none
  | _ + 1, [] => none
  | fuel + 1, c :: rest =>
    if c = 34 then some ([], rest)
    else if c = 92 then
      match rest with
      | [] => none
      | e :: rest2 =>
        if e = 34 then consResult 34 (parseStringBody fuel rest2)
        else if e = 92 then consResult 92 (parseStringBody fuel rest2)
        else if e = 98 then consResult 8 (parseStringBody fuel rest2)
        else if e = 116 then consResult 9 (parseStringBody fuel rest2)
        else if e = 110 then consResult 10 (parseStringBody fuel rest2)
        else if e = 102 then consResult 12 (parseStringBody fuel rest2)
        else if e = 114 then consResult 13 (parseStringBody fuel rest2)
        else if e = 117 then
          match parseHex4 rest2 with
          | none => none
          | some (v, rest3) =>
            if 55296 ≤ v ∧ v ≤ 56319 then
              match rest3 with
              | d1 :: d2 :: rest4 =>
                if d1 = 92 ∧ d2 = 117 then
                  match parseHex4 rest4 with
                  | none => none
                  | some (w, rest5) =>
                    if 56320 ≤ w ∧ w ≤ 57343 then
                      consResult (65536 + (v - 55296) * 1024 + (w - 56320))
                        (parseStringBody fuel rest5)
                    else none
                else none
              | _ => none
            else consResult v (parseStringBody fuel rest3)
        else none
    else consResult c (parseStringBody fuel rest)

/-- Skips JSON whitespace. -/
def skipWs : List Nat → List Nat
  | [] => []
  | c :: rest =>
    if c = 32 ∨ c = 9 ∨ c = 10 ∨ c = 13 then skipWs rest else c :: rest

mutual

/-- Parses one JSON value (string or object), fuel-bounded by the node
count, accepting the canonical json.dumps rendering (a subset of what
json.loads accepts). -/
def parseVal : Nat → List Nat → Option (Json × List Nat)
  | 0, _ => none
  | fuel + 1, input =>
    match skipWs input with
    | [] => none
    | c :: rest =>
      if c = 34 then
        match parseStringBody (rest.length + 1) rest with
        | none => none
        | some (s, r) => some (.str s, r)
      else if c = 123 then
        match skipWs rest with
        | [] => none
        | c2 :: rest2 =>
          if c2 = 125 then some (.obj .nil, rest2)
          else
            match parseEntry fuel (c2 :: rest2) with
            | none => none
            | some (k, v, r3) =>
              match parseTail fuel r3 with
              | none => none
              | some (fs, r4) => some (.obj (.cons k v fs), r4)
      else none

/-- Parses one object field: quoted key, colon, value. -/
def parseEntry : Nat → List Nat → Option (List Nat × Json × List Nat)
  | 0, _ => none
  | fuel + 1, input =>
    match skipWs input with
    | [] => none
    | c :: rest =>
      if c = 34 then
        match parseStringBody (rest.length + 1) rest with
        | none => none
        | some (k, r) =>
          match skipWs r with
          | [] => none
          | c2 :: r2 =>
            if c2 = 58 then
              match parseVal fuel r2 with
              | none => none
              | some (v, r3) => some (k, v, r3)
            else none
      else none

/-- Parses the rest of an object after one field: either the closing
brace or a comma and another field. -/
def parseTail : Nat → List Nat → Option (Fields × List Nat)
  | 0, _ => none
  | fuel + 1, input =>
    match skipWs input with
    | [] => none
    | c :: rest =>
      if c = 125 then some (.nil, rest)
      else if c = 44 then
        match parseEntry fuel rest with
        | none => none
        | some (k, v, r) =>
          match parseTail fuel r with
          | none => none
          | some (fs, r2) => some (.cons k v fs, r2)
      else none

end

/-- Embeds json.loads on the canonical subset: parse one value and
require only whitespace to remain. -/
def jsonLoads (s : List Nat) : Option Json :=
  match parseVal (s.length + 1) s with
  | some (j, r) => if skipWs r = [] then some j else none
  | none => none

/-- Field lookup in a JSON object (none on a string or missing key). -/
def findField : Fields → List Nat → Option Json
  | .nil, _ => none
  | .cons k v fs, key => if k = key then some v else findField fs key

/-- Key lookup on a JSON value. -/
def jLookup : Json → List Nat → Option Json
  | .str _, _ => none
  | .obj fs, key => findField fs key

/-- The base64 alphabet character of a sextet. -/
def b64Char (v : Nat) : Nat :=
  if v < 26 then 65 + v
  else if v < 52 then 71 + v
  else if v < 62 then v - 4
  else if v = 62 then 43
  else 47

/-- The sextet of a base64 alphabet character, if any. -/
def b64Val (c : Nat) : Option Nat :=
  if 65 ≤ c ∧ c ≤ 90 then some (c - 65)
  else if 97 ≤ c ∧ c ≤ 122 then some (c - 71)
  else if 48 ≤ c ∧ c ≤ 57 then some (c + 4)
  else if c = 43 then some 62
  else if c = 47 then some 63
  else none

/-- Embeds base64.b64encode on a byte string: three bytes become four
alphabet characters; one or two trailing bytes are padded with '='. -/
def b64encode : List Nat → List Nat
  | a :: b :: c :: rest =>
    b64Char (a / 4) :: b64Char (a % 4 * 16 + b / 16)
      :: b64Char (b % 16 * 4 + c / 64) :: b64Char (c % 64) :: b64encode rest
  | [a, b] => [b64Char (a / 4), b64Char (a % 4 * 16 + b / 16),
               b64Char (b % 16 * 4), 61]
  | [a] => [b64Char (a / 4), b64Char (a % 4 * 16), 61, 61]
  | [] => []

/-- Embeds base64.b64decode on well-padded input: four characters yield
three bytes, with '=' padding marking one or two final bytes. -/
def b64decode : List Nat → Option (List Nat)
  | [] => some []
  | c1 :: c2 :: c3 :: c4 :: rest =>
    match b64Val c1, b64Val c2 with
    | some v1, some v2 =>
      if c3 = 61 then
        if c4 = 61 ∧ rest = [] then some [v1 * 4 + v2 / 16] else none
      else
        match b64Val c3 with
        | some v3 =>
          if c4 = 61 then
            if rest = [] then some [v1 * 4 + v2 / 16, v2 % 16 * 16 + v3 / 4]
            else none
          else
            match b64Val c4 with
            | some v4 =>
              match b64decode rest with
              | some bs =>
                some ((v1 * 4 + v2 / 16) :: (v2 % 16 * 16 + v3 / 4)
                  :: (v3 % 4 * 64 + v4) :: bs)
              | none => none
            | none => none
        | none => none
    | _, _ => none
  | _ => none

/-- The JSON key "critical". -/
def keyCritical : PyStr := str2py "critical"

/-- The JSON key "type". -/
def keyType : PyStr := str2py "type"

/-- The JSON key "image". -/
def keyImage : PyStr := str2py "image"

/-- The JSON key "docker-manifest-digest". -/
def keyDigest : PyStr := str2py "docker-manifest-digest"

/-- The JSON key "identity". -/
def keyIdentity : PyStr := str2py "identity"

/-- The JSON key "docker-reference". -/
def keyReference : PyStr := str2py "docker-reference"

/-- The JSON key "optional". -/
def keyOptional : PyStr := str2py "optional"

/-- The JSON key "creator". -/
def keyCreator : PyStr := str2py "creator"

/-- The constant claim type string. -/
def atomicSigStr : PyStr := str2py "atomic container signature"

/-- The constant creator string. -/
def creatorStr : PyStr := str2py "Red Hat RCM Pub"

/-- Embeds the manifest_claim dict of create_manifest_claim_message,
lines 106-114: the atomic container signature with the digest under
critical.image.docker-manifest-digest and the reference under
critical.identity.docker-reference. -/
def manifest_claim (manifest_digest docker_reference : PyStr) : Json :=
  .obj (.cons keyCritical
    (.obj (.cons keyType (.str atomicSigStr)
      (.cons keyImage (.obj (.cons keyDigest (.str manifest_digest) .nil))
      (.cons keyIdentity
        (.obj (.cons keyReference (.str docker_reference) .nil)) .nil))))
    (.cons keyOptional
      (.obj (.cons keyCreator (.str creatorStr) .nil)) .nil))

/-- Embeds create_manifest_claim_message, lines 78-130: build the
manifest claim, serialize it with json.dumps, base64-encode it into
claim_file (the latin1 encode/decode pair is the identity on the ASCII
output of dumps), and assemble the message dict.  The task id comes from
the handler state; the fresh uuid (request_id) and the timestamp
(created) are effects of uuid.uuid4() and datetime.utcnow(), so they
enter as parameters. -/
def create_manifest_claim_message (task_id destination_repo signature_key
    manifest_digest docker_reference image_name request_id created : PyStr) :
    ClaimMessage :=
  { sig_key_id := signature_key,
    claim_file :=
      b64encode (dumps (manifest_claim manifest_digest docker_reference)),
    pub_task_id := task_id,
    request_id := request_id,
    manifest_digest := manifest_digest,
    repo := destination_repo,
    image_name := image_name,
    docker_reference := docker_reference,
    created := created }

-- ===== THEOREMS =====

theorem eraseFirst_perm (l : List PyStr) (x : PyStr) :
    x ∈ l → List.Perm l (x :: eraseFirst l x) := by
  induction l with
  | nil => intro hx; cases hx
  | cons y ys ih =>
    intro hx
    by_cases hyx : y = x
    · subst hyx
      simp [eraseFirst]
    · rw [List.mem_cons] at hx
      rcases hx with hx | hx
      · exact absurd hx.symm hyx
      · simp only [eraseFirst, if_neg hyx]
        exact ((ih hx).cons y).trans (List.Perm.swap x y _)

theorem eraseFirst_length_le (l : List PyStr) (x : PyStr) :
    (eraseFirst l x).length ≤ l.length := by
  induction l with
  | nil => simp [eraseFirst]
  | cons y ys ih =>
    by_cases hyx : y = x
    · simp [eraseFirst, if_pos hyx]
    · simp only [eraseFirst, if_neg hyx, List.length_cons]
      omega

theorem mchStep_ids (cfg : MCHConfig) (ev : MCHEvent) (s : RunState) :
    (((mchStep cfg ev s).pending : Multiset PyStr)
      + ((mchStep cfg ev s).inflight : Multiset PyStr)
      + (((mchStep cfg ev s).completed.map Prod.fst : List PyStr) : Multiset PyStr))
    = ((s.pending : Multiset PyStr) + (s.inflight : Multiset PyStr)
      + ((s.completed.map Prod.fst : List PyStr) : Multiset PyStr)) := by
  obtain ⟨p, inf, comp, rc, st⟩ := s
  cases st
  case complete => rfl
  case timedOut => rfl
  case failed => rfl
  case running =>
    cases ev with
    | dispatch =>
      simp only [mchStep]
      have hp : ((p.take (cfg.throttle - inf.length) : List PyStr) : Multiset PyStr)
          + ((p.drop (cfg.throttle - inf.length) : List PyStr) : Multiset PyStr)
          = (p : Multiset PyStr) := by
        rw [Multiset.coe_add, List.take_append_drop]
      rw [← hp]
      simp only [← Multiset.coe_add]
      abel
    | receive r =>
      simp only [mchStep]
      by_cases hmem : r.request_id ∈ inf
      · rw [if_pos hmem]
        have he : (inf : Multiset PyStr)
            = {r.request_id} + ((eraseFirst inf r.request_id : List PyStr) : Multiset PyStr) := by
          rw [Multiset.coe_eq_coe.mpr (eraseFirst_perm inf r.request_id hmem), ← Multiset.cons_coe,
            ← Multiset.singleton_add]
        simp only [List.map_append, List.map_cons, List.map_nil, ← Multiset.coe_add]
        rw [he]
        simp only [Multiset.coe_singleton]
        abel
      · rw [if_neg hmem]
    | watchdogExpire =>
      simp only [mchStep]
      by_cases hb : rc < cfg.retry
      · rw [if_pos hb]
        simp only [← Multiset.coe_add, Multiset.coe_nil]
        abel
      · rw [if_neg hb]
    | transportFail => rfl
    | checkComplete =>
      simp only [mchStep]
      by_cases hpi : p = [] ∧ inf = []
      · rw [if_pos hpi]
      · rw [if_neg hpi]

theorem reachable_ids {cfg : MCHConfig} {batch : List PyStr} {s : RunState}
    (h : Reachable cfg batch s) :
    ((s.pending : Multiset PyStr) + (s.inflight : Multiset PyStr)
      + ((s.completed.map Prod.fst : List PyStr) : Multiset PyStr))
      = (batch : Multiset PyStr) := by
  induction h with
  | init => simp [initState]
  | @step ev s h ih => rw [mchStep_ids, ih]

theorem reachable_perm {cfg : MCHConfig} {batch : List PyStr} {s : RunState}
    (h : Reachable cfg batch s) :
    List.Perm (s.pending ++ s.inflight ++ s.completed.map Prod.fst) batch := by
  rw [← Multiset.coe_eq_coe]
  simp only [← Multiset.coe_add]
  rw [← reachable_ids h]

theorem reachable_nodup {cfg : MCHConfig} {batch : List PyStr} {s : RunState}
    (h : Reachable cfg batch s) (hnd : batch.Nodup) :
    (s.pending ++ s.inflight ++ s.completed.map Prod.fst).Nodup :=
  ((reachable_perm h).nodup_iff).mpr hnd

theorem reachable_disjoints {cfg : MCHConfig} {batch : List PyStr} {s : RunState}
    (h : Reachable cfg batch s) (hnd : batch.Nodup) :
    s.pending.Disjoint s.inflight
    ∧ s.pending.Disjoint (s.completed.map Prod.fst)
    ∧ s.inflight.Disjoint (s.completed.map Prod.fst) := by
  have hnodup := reachable_nodup h hnd
  rw [List.append_assoc] at hnodup
  rcases List.nodup_append.mp hnodup with ⟨h1, h23, hd1⟩
  rcases List.nodup_append.mp h23 with ⟨h2, h3, hd23⟩
  refine ⟨?_, ?_, hd23⟩
  · exact fun a ha hb => hd1 ha (List.mem_append_left _ hb)
  · exact fun a ha hb => hd1 ha (List.mem_append_right _ hb)

theorem mchStep_inflight_le (cfg : MCHConfig) (ev : MCHEvent) (s : RunState)
    (hle : s.inflight.length ≤ cfg.throttle) :
    (mchStep cfg ev s).inflight.length ≤ cfg.throttle := by
  obtain ⟨p, inf, comp, rc, st⟩ := s
  cases st
  case complete => exact hle
  case timedOut => exact hle
  case failed => exact hle
  case running =>
    cases ev with
    | dispatch =>
      simp only [mchStep, List.length_append, List.length_take] at *
      omega
    | receive r =>
      simp only [mchStep]
      by_cases hmem : r.request_id ∈ inf
      · rw [if_pos hmem]
        exact le_trans (eraseFirst_length_le inf r.request_id) hle
      · rw [if_neg hmem]
        exact hle
    | watchdogExpire =>
      simp only [mchStep]
      by_cases hb : rc < cfg.retry
      · rw [if_pos hb]
        simp
      · rw [if_neg hb]
        exact hle
    | transportFail => exact hle
    | checkComplete =>
      simp only [mchStep]
      by_cases hpi : p = [] ∧ inf = []
      · rw [if_pos hpi]
        exact hle
      · rw [if_neg hpi]
        exact hle

theorem reachable_inflight_le {cfg : MCHConfig} {batch : List PyStr} {s : RunState}
    (h : Reachable cfg batch s) : s.inflight.length ≤ cfg.throttle := by
  induction h with
  | init => simp [initState]
  | @step ev s h ih => exact mchStep_inflight_le cfg ev s ih

/-- C1: in every reachable Run State the pending, in-flight and completed
correlation ids are pairwise disjoint and together are exactly the ids of
the original batch — no request is lost or double-counted. -/
theorem claim_C1 {cfg : MCHConfig} {batch : List PyStr} {s : RunState}
    (h : Reachable cfg batch s) (hnd : batch.Nodup) :
    List.Perm (s.pending ++ s.inflight ++ s.completed.map Prod.fst) batch
    ∧ s.pending.Disjoint s.inflight
    ∧ s.pending.Disjoint (s.completed.map Prod.fst)
    ∧ s.inflight.Disjoint (s.completed.map Prod.fst) :=
  ⟨reachable_perm h, reachable_disjoints h hnd⟩

/-- Witness for C1: the invariant at the concrete reachable state runA2. -/
theorem claim_C1_witness :
    List.Perm (runA2.pending ++ runA2.inflight ++ runA2.completed.map Prod.fst) batchA
    ∧ runA2.pending.Disjoint runA2.inflight
    ∧ runA2.pending.Disjoint (runA2.completed.map Prod.fst)
    ∧ runA2.inflight.Disjoint (runA2.completed.map Prod.fst) :=
  claim_C1 (Reachable.step (.receive (respA 0)) (Reachable.step .dispatch Reachable.init))
    (by decide)

/-- C2: in every reachable Run State the number of in-flight claims never
exceeds the throttle, and a dispatch pass admits a prefix of pending (in
original batch order) after which pending is empty or in-flight is at the
throttle. -/
theorem claim_C2 {cfg : MCHConfig} {batch : List PyStr} {s : RunState}
    (h : Reachable cfg batch s) (hT : 1 ≤ cfg.throttle) :
    s.inflight.length ≤ cfg.throttle
    ∧ (s.status = .running →
        (mchStep cfg .dispatch s).pending
          = s.pending.drop (cfg.throttle - s.inflight.length)
        ∧ (mchStep cfg .dispatch s).inflight
          = s.inflight ++ s.pending.take (cfg.throttle - s.inflight.length)
        ∧ ((mchStep cfg .dispatch s).pending = []
            ∨ (mchStep cfg .dispatch s).inflight.length = cfg.throttle)) := by
  have ha := reachable_inflight_le h
  refine ⟨ha, fun hrun => ?_⟩
  obtain ⟨p, inf, comp, rc, st⟩ := s
  cases st
  case complete => cases hrun
  case timedOut => cases hrun
  case failed => cases hrun
  case running =>
    have ha2 : inf.length ≤ cfg.throttle := ha
    refine ⟨rfl, rfl, ?_⟩
    by_cases hlen : p.length ≤ cfg.throttle - inf.length
    · left
      exact List.drop_eq_nil_of_le hlen
    · right
      show (inf ++ p.take (cfg.throttle - inf.length)).length = cfg.throttle
      simp only [List.length_append, List.length_take]
      omega

/-- Witness for C2: the throttle bound and dispatcher contract at runA1. -/
theorem claim_C2_witness :
    runA1.inflight.length ≤ cfgA.throttle
    ∧ (runA1.status = .running →
        (mchStep cfgA .dispatch runA1).pending
          = runA1.pending.drop (cfgA.throttle - runA1.inflight.length)
        ∧ (mchStep cfgA .dispatch runA1).inflight
          = runA1.inflight ++ runA1.pending.take (cfgA.throttle - runA1.inflight.length)
        ∧ ((mchStep cfgA .dispatch runA1).pending = []
            ∨ (mchStep cfgA .dispatch runA1).inflight.length = cfgA.throttle)) :=
  claim_C2 (Reachable.step .dispatch Reachable.init) (by decide)

/-- C3: if the watchdog expires in a running state with no retry budget
left, the run becomes TIMED_OUT, and get_signatures_from_radas raises a
timeout error carrying the completed records so far plus the correlation
ids that never received a response (which, with the completed ids, make
up exactly the original batch). -/
theorem claim_C3 {cfg : MCHConfig} {batch : List PyStr} {s : RunState}
    (h : Reachable cfg batch s) (hrun : s.status = .running)
    (hout : s.pending ++ s.inflight ≠ []) (hbud : cfg.retry ≤ s.retryCount) :
    (mchStep cfg .watchdogExpire s).status = .timedOut
    ∧ get_signatures_from_radas (mchStep cfg .watchdogExpire s)
        = .error { completed := s.completed,
                   unanswered := s.pending ++ s.inflight }
    ∧ List.Perm (s.pending ++ s.inflight ++ s.completed.map Prod.fst) batch := by
  have hperm := reachable_perm h
  obtain ⟨p, inf, comp, rc, st⟩ := s
  cases st
  case complete => cases hrun
  case timedOut => cases hrun
  case failed => cases hrun
  case running =>
    have hb2 : cfg.retry ≤ rc := hbud
    simp only [mchStep]
    rw [if_neg (by omega)]
    exact ⟨rfl, rfl, hperm⟩

/-- Witness for C3: timeout surfaced from the concrete state runB1 whose
retry budget is exhausted. -/
theorem claim_C3_witness :
    (mchStep cfgA .watchdogExpire runB1).status = .timedOut
    ∧ get_signatures_from_radas (mchStep cfgA .watchdogExpire runB1)
        = .error { completed := runB1.completed,
                   unanswered := runB1.pending ++ runB1.inflight }
    ∧ List.Perm (runB1.pending ++ runB1.inflight ++ runB1.completed.map Prod.fst) batchA :=
  claim_C3
    (Reachable.step .watchdogExpire (Reachable.step .dispatch Reachable.init))
    (by decide) (by decide) (by decide)

/-- C4: a response whose correlation id is not in-flight (in particular a
second response for an already-completed id) leaves the Run State
entirely unchanged. -/
theorem claim_C4 {cfg : MCHConfig} {batch : List PyStr} {s : RunState}
    (h : Reachable cfg batch s) (hnd : batch.Nodup) (r : SigMessage) :
    (r.request_id ∉ s.inflight → mchStep cfg (.receive r) s = s)
    ∧ (r.request_id ∈ s.completed.map Prod.fst → mchStep cfg (.receive r) s = s) := by
  have hdj := (reachable_disjoints h hnd).2.2
  have h1 : r.request_id ∉ s.inflight → mchStep cfg (.receive r) s = s := by
    intro hni
    obtain ⟨p, inf, comp, rc, st⟩ := s
    cases st
    case complete => rfl
    case timedOut => rfl
    case failed => rfl
    case running =>
      simp only [mchStep]
      rw [if_neg hni]
  exact ⟨h1, fun hc => h1 (fun hin => hdj hin hc)⟩

/-- Witness for C4: at runA2, a response for the unknown id [5] and a
duplicate response for the already-completed id [0] both leave the state
unchanged. -/
theorem claim_C4_witness :
    ((respA 5).request_id ∉ runA2.inflight →
      mchStep cfgA (.receive (respA 5)) runA2 = runA2)
    ∧ ((respA 5).request_id ∈ runA2.completed.map Prod.fst →
      mchStep cfgA (.receive (respA 5)) runA2 = runA2) :=
  claim_C4 (Reachable.step (.receive (respA 0)) (Reachable.step .dispatch Reachable.init))
    (by decide) (respA 5)

/-- C7: when pending and in-flight are both empty, the completion check
makes the run COMPLETE and get_signatures_from_radas returns the full
completed set — exactly one ResponseRecord per correlation id of the
batch, keyed by correlation id. -/
theorem claim_C7 {cfg : MCHConfig} {batch : List PyStr} {s : RunState}
    (h : Reachable cfg batch s) (hnd : batch.Nodup) (hrun : s.status = .running)
    (hp : s.pending = []) (hi : s.inflight = []) :
    (mchStep cfg .checkComplete s).status = .complete
    ∧ get_signatures_from_radas (mchStep cfg .checkComplete s) = .ok s.completed
    ∧ List.Perm (s.completed.map Prod.fst) batch
    ∧ (s.completed.map Prod.fst).Nodup := by
  have hperm := reachable_perm h
  have hnodup := reachable_nodup h hnd
  rw [hp, hi] at hperm hnodup
  simp only [List.nil_append] at hperm hnodup
  obtain ⟨p, inf, comp, rc, st⟩ := s
  cases st
  case complete => cases hrun
  case timedOut => cases hrun
  case failed => cases hrun
  case running =>
    simp only [mchStep]
    simp only at hp hi
    rw [if_pos ⟨hp, hi⟩]
    exact ⟨rfl, rfl, hperm, hnodup⟩

/-- Witness for C7: the completed run runA3 of batchA. -/
theorem claim_C7_witness :
    (mchStep cfgA .checkComplete runA3).status = .complete
    ∧ get_signatures_from_radas (mchStep cfgA .checkComplete runA3) = .ok runA3.completed
    ∧ List.Perm (runA3.completed.map Prod.fst) batchA
    ∧ (runA3.completed.map Prod.fst).Nodup :=
  claim_C7
    (Reachable.step (.receive (respA 1))
      (Reachable.step (.receive (respA 0)) (Reachable.step .dispatch Reachable.init)))
    (by decide) (by decide) (by decide) (by decide)

theorem filter_foldl_eq (keys : List (PyStr × PyStr × PyStr))
    (l : List ClaimMessage) (acc : List ClaimMessage) :
    l.foldl (fun acc m => if msgTriple m ∈ keys then acc else acc ++ [m]) acc
      = acc ++ l.filter (fun m => decide (msgTriple m ∉ keys)) := by
  induction l generalizing acc with
  | nil => simp
  | cons m rest ih =>
    simp only [List.foldl_cons, List.filter_cons]
    by_cases hm : msgTriple m ∈ keys
    · rw [if_pos hm]
      rw [ih acc]
      simp [hm]
    · rw [if_neg hm]
      rw [ih (acc ++ [m])]
      simp [hm]

/-- C6: filter_claim_messages returns exactly the order-preserving
subsequence of the input claim messages whose
(docker_reference, manifest_digest, sig_key_id) triple does not equal the
(reference, manifest_digest, sig_key_id) triple of any existing
signature. -/
theorem claim_C6 (claim_messages : List ClaimMessage)
    (existing_signatures : List ExistingSig) :
    filter_claim_messages claim_messages existing_signatures
      = claim_messages.filter (fun m => decide (∀ s ∈ existing_signatures,
          ¬(s.reference = m.docker_reference ∧ s.manifest_digest = m.manifest_digest
            ∧ s.sig_key_id = m.sig_key_id)))
    ∧ List.Sublist (filter_claim_messages claim_messages existing_signatures)
        claim_messages := by
  have heq : filter_claim_messages claim_messages existing_signatures
      = claim_messages.filter (fun m => decide (∀ s ∈ existing_signatures,
          ¬(s.reference = m.docker_reference ∧ s.manifest_digest = m.manifest_digest
            ∧ s.sig_key_id = m.sig_key_id))) := by
    unfold filter_claim_messages
    rw [filter_foldl_eq]
    simp only [List.nil_append]
    apply List.filter_congr
    intro m _
    rw [decide_eq_decide]
    rw [List.mem_map]
    constructor
    · intro hnone s hs hcomp
      exact hnone ⟨s, hs, by
        simp only [sigTriple, msgTriple, Prod.mk.injEq]
        exact ⟨hcomp.1, hcomp.2.1, hcomp.2.2⟩⟩
    · rintro hall ⟨s, hs, heq2⟩
      simp only [sigTriple, msgTriple, Prod.mk.injEq] at heq2
      exact hall s hs ⟨heq2.1, heq2.2.1, heq2.2.2⟩
  exact ⟨heq, heq ▸ List.filter_sublist claim_messages⟩

theorem countFailed_ok (claim_messages : List ClaimMessage)
    (sigs : List SigMessage)
    (hmatch : ∀ m ∈ sigs, m.errors ≠ [] →
      ∃ c ∈ claim_messages, c.request_id = m.request_id) :
    ∃ n, countFailed claim_messages sigs = .ok n
      ∧ (n = 0 ↔ ∀ m ∈ sigs, m.errors = []) := by
  induction sigs with
  | nil => exact ⟨0, rfl, by simp⟩
  | cons m rest ih =>
    obtain ⟨n, hn, hiff⟩ := ih (fun x hx => hmatch x (List.mem_cons_of_mem m hx))
    by_cases hm : m.errors = []
    · refine ⟨n, ?_, ?_⟩
      · simp only [countFailed, if_pos hm]
        exact hn
      · rw [hiff]
        constructor
        · intro hall x hx
          rcases List.mem_cons.mp hx with hx | hx
          · rw [hx]; exact hm
          · exact hall x hx
        · intro hall x hx
          exact hall x (List.mem_cons_of_mem m hx)
    · obtain ⟨c, hc, hcid⟩ := hmatch m (List.mem_cons_self m rest) hm
      have hfil : (claim_messages.filter
          (fun c => decide (c.request_id = m.request_id))).head? ≠ none := by
        intro habs
        rw [List.head?_eq_none_iff] at habs
        rw [List.filter_eq_nil_iff] at habs
        exact habs c hc (by simp [hcid])
      refine ⟨n + 1, ?_, by simp [hm]⟩
      simp only [countFailed, if_neg hm]
      cases hh : (claim_messages.filter
          (fun c => decide (c.request_id = m.request_id))).head? with
      | none => exact absurd hh hfil
      | some c2 => rw [hn]

/-- Counterexample to C5 as stated: with no claim messages and one
signature message whose error list is non-empty, validate_radas_messages
raises IndexError (from the first-element selection), not SigningError,
so the right-to-left direction of the claimed equivalence fails. -/
theorem claim_C5_counterexample :
    badSig.errors ≠ []
    ∧ validate_radas_messages [] [badSig] = .error .indexError
    ∧ raisesSigningErr (validate_radas_messages [] [badSig]) = false := by
  refine ⟨by decide, rfl, rfl⟩

/-- C5 (amended): provided every signature message with a non-empty
error list has a claim message with the same request_id,
validate_radas_messages raises SigningError iff at least one signature
message has a non-empty error list, and returns normally when every
error list is empty. -/
theorem claim_C5 (claim_messages : List ClaimMessage)
    (signature_messages : List SigMessage)
    (hmatch : ∀ m ∈ signature_messages, m.errors ≠ [] →
      ∃ c ∈ claim_messages, c.request_id = m.request_id) :
    (raisesSigningErr (validate_radas_messages claim_messages signature_messages)
        = true
      ↔ ∃ m ∈ signature_messages, m.errors ≠ [])
    ∧ ((∀ m ∈ signature_messages, m.errors = []) →
        validate_radas_messages claim_messages signature_messages = .ok ()) := by
  obtain ⟨n, hn, hiff⟩ := countFailed_ok claim_messages signature_messages hmatch
  have hv : validate_radas_messages claim_messages signature_messages
      = if n ≠ 0 then .error (.signingError n claim_messages.length)
        else .ok () := by
    rw [validate_radas_messages, hn]
  constructor
  · rw [hv]
    by_cases hz : n = 0
    · rw [if_neg (by omega)]
      simp only [raisesSigningErr]
      constructor
      · intro habs; cases habs
      · intro ⟨m, hm, hme⟩
        exact absurd (hiff.mp hz m hm) hme
    · rw [if_pos hz]
      simp only [raisesSigningErr, PyError.isSigningErr]
      constructor
      · intro _
        by_contra hno
        push_neg at hno
        exact hz (hiff.mpr hno)
      · intro _; trivial
  · intro hall
    rw [hv, if_neg (by simp [hiff.mpr hall])]

/-- Witness for C5 (amended) on a one-element run whose failing message
has a matching claim message. -/
theorem claim_C5_witness :
    (raisesSigningErr (validate_radas_messages [claimX] [badSig]) = true
      ↔ ∃ m ∈ [badSig], m.errors ≠ [])
    ∧ ((∀ m ∈ [badSig], m.errors = []) →
        validate_radas_messages [claimX] [badSig] = .ok ()) :=
  claim_C5 [claimX] [badSig] (by decide)

theorem claimById_aux (rid : PyStr) (l : List ClaimMessage)
    (acc : Option ClaimMessage) :
    l.foldl (fun acc m => if m.request_id = rid then some m else acc) acc = none
      ↔ acc = none ∧ ∀ c ∈ l, c.request_id ≠ rid := by
  induction l generalizing acc with
  | nil => simp
  | cons m rest ih =>
    simp only [List.foldl_cons]
    by_cases hm : m.request_id = rid
    · rw [if_pos hm, ih]
      simp only [List.mem_cons]
      constructor
      · intro ⟨habs, _⟩; cases habs
      · intro ⟨_, hall⟩
        exact absurd hm (hall m (Or.inl rfl))
    · rw [if_neg hm, ih]
      simp only [List.mem_cons]
      constructor
      · intro ⟨ha, hall⟩
        exact ⟨ha, fun c hc => hc.elim (fun he => he ▸ hm) (hall c)⟩
      · intro ⟨ha, hall⟩
        exact ⟨ha, fun c hc => hall c (Or.inr hc)⟩

theorem claimById_eq_none (claim_messages : List ClaimMessage) (rid : PyStr) :
    claimById claim_messages rid = none
      ↔ ∀ c ∈ claim_messages, c.request_id ≠ rid := by
  rw [claimById, claimById_aux]
  simp

theorem buildSignatures_ok (claim_messages : List ClaimMessage)
    (l : List SigMessage)
    (hall : ∀ m ∈ l, claimById claim_messages m.request_id ≠ none) :
    ∃ out, buildSignatures claim_messages l = .ok out := by
  induction l with
  | nil => exact ⟨[], rfl⟩
  | cons m rest ih =>
    obtain ⟨out, hout⟩ := ih (fun x hx => hall x (List.mem_cons_of_mem m hx))
    cases hc : claimById claim_messages m.request_id with
    | none => exact absurd hc (hall m (List.mem_cons_self m rest))
    | some c =>
      refine ⟨{ manifest_digest := m.manifest_digest,
                reference := c.docker_reference,
                repository := c.image_name,
                sig_key_id := c.sig_key_id,
                signature_data := m.signed_claim } :: out, ?_⟩
      simp only [buildSignatures, hc, hout]

theorem buildSignatures_keyError (claim_messages : List ClaimMessage)
    (l : List SigMessage)
    (hsome : ∃ m ∈ l, claimById claim_messages m.request_id = none) :
    buildSignatures claim_messages l = .error .keyError := by
  induction l with
  | nil => obtain ⟨m, hm, _⟩ := hsome; cases hm
  | cons m rest ih =>
    obtain ⟨x, hx, hxn⟩ := hsome
    cases hc : claimById claim_messages m.request_id with
    | none => simp only [buildSignatures, hc]
    | some c =>
      rcases List.mem_cons.mp hx with hxm | hxr
      · rw [hxm] at hxn
        rw [hxn] at hc
        cases hc
      · have hrest := ih ⟨x, hxr, hxn⟩
        simp only [buildSignatures, hc, hrest]

theorem countFailed_indexError (claim_messages : List ClaimMessage)
    (sigs : List SigMessage)
    (hsome : ∃ m ∈ sigs, m.errors ≠ []
      ∧ ∀ c ∈ claim_messages, c.request_id ≠ m.request_id) :
    countFailed claim_messages sigs = .error .indexError := by
  induction sigs with
  | nil => obtain ⟨m, hm, _⟩ := hsome; cases hm
  | cons m rest ih =>
    obtain ⟨x, hx, hxe, hxno⟩ := hsome
    by_cases hme : m.errors = []
    · have hxr : x ∈ rest := by
        rcases List.mem_cons.mp hx with hxm | hxr
        · rw [hxm] at hxe; exact absurd hme hxe
        · exact hxr
      simp only [countFailed, if_pos hme]
      exact ih ⟨x, hxr, hxe, hxno⟩
    · simp only [countFailed, if_neg hme]
      cases hh : (claim_messages.filter
          (fun c => decide (c.request_id = m.request_id))).head? with
      | none => rfl
      | some c =>
        have hxr : x ∈ rest := by
          rcases List.mem_cons.mp hx with hxm | hxr
          · exfalso
            subst hxm
            have hfil : claim_messages.filter
                (fun c => decide (c.request_id = x.request_id)) = [] :=
              List.filter_eq_nil_iff.mpr (fun c hc => by simp [hxno c hc])
            rw [hfil] at hh
            cases hh
          · exact hxr
        rw [ih ⟨x, hxr, hxe, hxno⟩]

/-- Counterexample to C10 as stated: with no claim messages, the lone
signature message noErrSig violates the precondition (its request_id
matches no claim message), yet validate_radas_messages does not fail —
it returns normally, because the first-element selection is only reached
for messages with a non-empty error list.  So the part of the claim
saying that without the precondition both functions fail is false. -/
theorem claim_C10_counterexample :
    (¬ ∀ m ∈ [noErrSig], ∃ c ∈ ([] : List ClaimMessage),
        c.request_id = m.request_id)
    ∧ validate_radas_messages [] [noErrSig] = .ok () := by
  constructor
  · intro habs
    obtain ⟨c, hc, _⟩ := habs noErrSig (List.mem_cons_self _ _)
    cases hc
  · rfl

/-- C10 (amended): if every signature message's request_id occurs among
the claim messages' request_ids, both the dict lookup of
upload_signatures_to_pyxis and the first-element selection of
validate_radas_messages always succeed.  Without the precondition,
upload_signatures_to_pyxis raises KeyError for any unmatched message
(rather than skipping it), while validate_radas_messages raises
IndexError only when an unmatched message has a non-empty error list
(unmatched messages with an empty error list are never selected, so it
returns without failing on them). -/
theorem claim_C10 (claim_messages : List ClaimMessage)
    (signature_messages : List SigMessage) :
    ((∀ m ∈ signature_messages, ∃ c ∈ claim_messages,
        c.request_id = m.request_id) →
      (∃ out, upload_signatures_to_pyxis claim_messages signature_messages
          = .ok out)
      ∧ (∃ n, countFailed claim_messages signature_messages = .ok n))
    ∧ ((∃ m ∈ signature_messages, ∀ c ∈ claim_messages,
        c.request_id ≠ m.request_id) →
      upload_signatures_to_pyxis claim_messages signature_messages
        = .error .keyError)
    ∧ ((∃ m ∈ signature_messages, m.errors ≠ [] ∧ ∀ c ∈ claim_messages,
        c.request_id ≠ m.request_id) →
      validate_radas_messages claim_messages signature_messages
        = .error .indexError) := by
  refine ⟨?_, ?_, ?_⟩
  · intro hall
    constructor
    · apply buildSignatures_ok
      intro m hm
      obtain ⟨c, hc, hcid⟩ := hall m (List.mem_mergeSort.mp hm)
      intro habs
      exact (claimById_eq_none claim_messages m.request_id).mp habs c hc hcid
    · obtain ⟨n, hn, _⟩ := countFailed_ok claim_messages signature_messages
        (fun m hm _ => hall m hm)
      exact ⟨n, hn⟩
  · intro ⟨m, hm, hnone⟩
    apply buildSignatures_keyError
    refine ⟨m, List.mem_mergeSort.mpr hm, ?_⟩
    exact (claimById_eq_none claim_messages m.request_id).mpr hnone
  · intro hsome
    rw [validate_radas_messages, countFailed_indexError claim_messages
      signature_messages hsome]

/-- Witness for C10 (amended): a matched one-message exchange where both
the upload construction and the validation selection succeed. -/
theorem claim_C10_witness :
    (∃ out, upload_signatures_to_pyxis [claimX] [badSig] = .ok out)
    ∧ (∃ n, countFailed [claimX] [badSig] = .ok n) :=
  (claim_C10 [claimX] [badSig]).1 (by decide)

/-- C9: with container signing disabled in the target settings,
sign_container_images and sign_operator_images return immediately with
no external effects (no claim construction, no signature-store query, no
RADAS send, no Pyxis upload); and when the Pyxis filter leaves zero
claim messages, sign_container_images stops after the store query,
performing no RADAS send and no upload. -/
theorem claim_C9 (item_claims : List ClaimMessage)
    (existing : List ExistingSig) (radas opRadas : List SigMessage)
    (opClaims : List ClaimMessage) :
    sign_container_images false item_claims existing radas = ([], .ok ())
    ∧ sign_operator_images false opClaims opRadas = ([], .ok ())
    ∧ (filter_claim_messages item_claims existing = [] →
        sign_container_images true item_claims existing radas
          = ([.constructClaims, .querySigstore], .ok ())) := by
  refine ⟨rfl, rfl, fun hf => ?_⟩
  simp [sign_container_images, hf]

/-- Witness for C9: a concrete claim message filtered out by a matching
existing signature, after which the container path stops at the store
query. -/
theorem claim_C9_witness :
    sign_container_images true [claimX] [exSigX] []
      = ([.constructClaims, .querySigstore], .ok ()) :=
  (claim_C9 [claimX] [exSigX] [] [] []).2.2 (by decide)

theorem b64Val_b64Char : ∀ v, v < 64 → b64Val (b64Char v) = some v := by decide

theorem b64Char_ne_pad : ∀ v, v < 64 → b64Char v ≠ 61 := by decide

theorem b64_roundtrip :
    ∀ (bytes : List Nat), (∀ x ∈ bytes, x < 256) →
      b64decode (b64encode bytes) = some bytes
  | [] => fun _ => rfl
  | [a] => fun h => by
    have ha : a < 256 := h a (by simp)
    have e1 : b64Val (b64Char (a / 4)) = some (a / 4) :=
      b64Val_b64Char _ (by omega)
    have e2 : b64Val (b64Char (a % 4 * 16)) = some (a % 4 * 16) :=
      b64Val_b64Char _ (by omega)
    simp only [b64encode, b64decode, e1, e2, Option.some.injEq,
      List.cons.injEq, and_true, if_true, if_pos rfl, and_self, ite_true]
    omega
  | [a, b] => fun h => by
    have ha : a < 256 := h a (by simp)
    have hb : b < 256 := h b (by simp)
    have e1 : b64Val (b64Char (a / 4)) = some (a / 4) :=
      b64Val_b64Char _ (by omega)
    have e2 : b64Val (b64Char (a % 4 * 16 + b / 16))
        = some (a % 4 * 16 + b / 16) := b64Val_b64Char _ (by omega)
    have e3 : b64Val (b64Char (b % 16 * 4)) = some (b % 16 * 4) :=
      b64Val_b64Char _ (by omega)
    have n3 : ¬(b64Char (b % 16 * 4) = 61) := b64Char_ne_pad _ (by omega)
    simp only [b64encode, b64decode, e1, e2, e3, n3, Option.some.injEq,
      List.cons.injEq, and_true, if_true, if_pos rfl, and_self, ite_true,
      if_false, ite_false]
    omega
  | a :: b :: c :: rest => fun h => by
    have ha : a < 256 := h a (by simp)
    have hb : b < 256 := h b (by simp)
    have hc : c < 256 := h c (by simp)
    have ih := b64_roundtrip rest (fun x hx => h x (by simp [hx]))
    have e1 : b64Val (b64Char (a / 4)) = some (a / 4) :=
      b64Val_b64Char _ (by omega)
    have e2 : b64Val (b64Char (a % 4 * 16 + b / 16))
        = some (a % 4 * 16 + b / 16) := b64Val_b64Char _ (by omega)
    have e3 : b64Val (b64Char (b % 16 * 4 + c / 64))
        = some (b % 16 * 4 + c / 64) := b64Val_b64Char _ (by omega)
    have e4 : b64Val (b64Char (c % 64)) = some (c % 64) :=
      b64Val_b64Char _ (by omega)
    have n3 : ¬(b64Char (b % 16 * 4 + c / 64) = 61) :=
      b64Char_ne_pad _ (by omega)
    have n4 : ¬(b64Char (c % 64) = 61) := b64Char_ne_pad _ (by omega)
    simp only [b64encode, b64decode, e1, e2, e3, e4, n3, n4, ih,
      Option.some.injEq, List.cons.injEq, and_true, if_false, ite_false]
    omega

theorem hexVal_hexDig : ∀ d, d < 16 → hexVal (hexDig d) = some d := by decide

theorem parseHex4_hex4 (v : Nat) (hv : v < 65536) (tail : List Nat) :
    parseHex4 (hex4 v ++ tail) = some (v, tail) := by
  have e1 := hexVal_hexDig (v / 4096 % 16) (by omega)
  have e2 := hexVal_hexDig (v / 256 % 16) (by omega)
  have e3 := hexVal_hexDig (v / 16 % 16) (by omega)
  have e4 := hexVal_hexDig (v % 16) (by omega)
  simp only [hex4, List.cons_append, List.nil_append, parseHex4,
    e1, e2, e3, e4, Option.some.injEq, Prod.mk.injEq]
  exact ⟨by omega, trivial⟩

theorem escapeChar_ne_nil : ∀ c : Nat, 1 ≤ (escapeChar c).length := by
  intro c
  unfold escapeChar
  split_ifs <;> simp [hex4]

theorem escapeStr_len (s : List Nat) : s.length ≤ (escapeStr s).length := by
  induction s with
  | nil => simp [escapeStr]
  | cons c cs ih =>
    simp only [escapeStr, List.length_cons, List.length_append]
    have := escapeChar_ne_nil c
    omega

theorem psb_quote (f : Nat) (tail : List Nat) :
    parseStringBody (f + 1) (escapeChar 34 ++ tail)
      = consResult 34 (parseStringBody f tail) := by
  have he : escapeChar 34 = [92, 34] := rfl
  simp only [he, List.cons_append, List.nil_append]
  simp [parseStringBody]

theorem psb_backslash (f : Nat) (tail : List Nat) :
    parseStringBody (f + 1) (escapeChar 92 ++ tail)
      = consResult 92 (parseStringBody f tail) := by
  have he : escapeChar 92 = [92, 92] := rfl
  simp only [he, List.cons_append, List.nil_append]
  simp [parseStringBody]

theorem psb_printable (c : Nat) (f : Nat) (tail : List Nat)
    (h1 : ¬c = 34) (h2 : ¬c = 92) (h3 : 32 ≤ c ∧ c ≤ 126) :
    parseStringBody (f + 1) (escapeChar c ++ tail)
      = consResult c (parseStringBody f tail) := by
  have he : escapeChar c = [c] := by
    unfold escapeChar
    rw [if_neg h1, if_neg h2, if_pos h3]
  simp only [he, List.cons_append, List.nil_append]
  simp only [parseStringBody, if_neg h1, if_neg h2]

theorem psb_bs8 (f : Nat) (tail : List Nat) :
    parseStringBody (f + 1) (escapeChar 8 ++ tail)
      = consResult 8 (parseStringBody f tail) := by
  have he : escapeChar 8 = [92, 98] := rfl
  simp only [he, List.cons_append, List.nil_append]
  simp [parseStringBody]

theorem psb_tab (f : Nat) (tail : List Nat) :
    parseStringBody (f + 1) (escapeChar 9 ++ tail)
      = consResult 9 (parseStringBody f tail) := by
  have he : escapeChar 9 = [92, 116] := rfl
  simp only [he, List.cons_append, List.nil_append]
  simp [parseStringBody]

theorem psb_nl (f : Nat) (tail : List Nat) :
    parseStringBody (f + 1) (escapeChar 10 ++ tail)
      = consResult 10 (parseStringBody f tail) := by
  have he : escapeChar 10 = [92, 110] := rfl
  simp only [he, List.cons_append, List.nil_append]
  simp [parseStringBody]

theorem psb_ff (f : Nat) (tail : List Nat) :
    parseStringBody (f + 1) (escapeChar 12 ++ tail)
      = consResult 12 (parseStringBody f tail) := by
  have he : escapeChar 12 = [92, 102] := rfl
  simp only [he, List.cons_append, List.nil_append]
  simp [parseStringBody]

theorem psb_cr (f : Nat) (tail : List Nat) :
    parseStringBody (f + 1) (escapeChar 13 ++ tail)
      = consResult 13 (parseStringBody f tail) := by
  have he : escapeChar 13 = [92, 114] := rfl
  simp only [he, List.cons_append, List.nil_append]
  simp [parseStringBody]

theorem psb_u (v : Nat) (f : Nat) (tail : List Nat) (hv : v < 65536)
    (hns : ¬(55296 ≤ v ∧ v ≤ 56319)) :
    parseStringBody (f + 1) (92 :: 117 :: (hex4 v ++ tail))
      = consResult v (parseStringBody f tail) := by
  simp [parseStringBody, parseHex4_hex4 v hv, hns]

theorem psb_u_pair (v w : Nat) (f : Nat) (tail : List Nat)
    (hv : v < 65536) (hw : w < 65536)
    (hA : 55296 ≤ v) (hB : v ≤ 56319) (hC : 56320 ≤ w) (hD : w ≤ 57343) :
    parseStringBody (f + 1)
        (92 :: 117 :: (hex4 v ++ (92 :: 117 :: (hex4 w ++ tail))))
      = consResult (65536 + (v - 55296) * 1024 + (w - 56320))
          (parseStringBody f tail) := by
  simp [parseStringBody, parseHex4_hex4 v hv, parseHex4_hex4 w hw,
    hA, hB, hC, hD]

theorem psb_bmp (c : Nat) (f : Nat) (tail : List Nat)
    (h1 : ¬c = 34) (h2 : ¬c = 92) (h3 : ¬(32 ≤ c ∧ c ≤ 126)) (h4 : ¬c = 8)
    (h5 : ¬c = 9) (h6 : ¬c = 10) (h7 : ¬c = 12) (h8 : ¬c = 13)
    (h9 : c < 65536) (hns : ¬(55296 ≤ c ∧ c ≤ 56319)) :
    parseStringBody (f + 1) (escapeChar c ++ tail)
      = consResult c (parseStringBody f tail) := by
  have he : escapeChar c = 92 :: 117 :: hex4 c := by
    unfold escapeChar
    rw [if_neg h1, if_neg h2, if_neg h3, if_neg h4, if_neg h5, if_neg h6,
      if_neg h7, if_neg h8, if_pos h9]
  rw [he]
  simp only [List.cons_append]
  exact psb_u c f tail h9 hns

theorem psb_astral (c : Nat) (f : Nat) (tail : List Nat)
    (h1 : ¬c = 34) (h2 : ¬c = 92) (h3 : ¬(32 ≤ c ∧ c ≤ 126)) (h4 : ¬c = 8)
    (h5 : ¬c = 9) (h6 : ¬c = 10) (h7 : ¬c = 12) (h8 : ¬c = 13)
    (h9 : ¬c < 65536) (hlt : c < 1114112) :
    parseStringBody (f + 1) (escapeChar c ++ tail)
      = consResult c (parseStringBody f tail) := by
  have he : escapeChar c
      = (92 :: 117 :: hex4 (55296 + (c - 65536) / 1024))
        ++ (92 :: 117 :: hex4 (56320 + (c - 65536) % 1024)) := by
    unfold escapeChar
    rw [if_neg h1, if_neg h2, if_neg h3, if_neg h4, if_neg h5, if_neg h6,
      if_neg h7, if_neg h8, if_neg h9]
  rw [he]
  simp only [List.cons_append, List.append_assoc]
  rw [psb_u_pair (55296 + (c - 65536) / 1024) (56320 + (c - 65536) % 1024)
    f tail (by omega) (by omega) (by omega) (by omega) (by omega) (by omega)]
  have heq : 65536 + (55296 + (c - 65536) / 1024 - 55296) * 1024
      + (56320 + (c - 65536) % 1024 - 56320) = c := by omega
  rw [heq]

theorem parseStringBody_escapeChar (c : Nat) (f : Nat) (tail : List Nat)
    (hvc : validCp c) :
    parseStringBody (f + 1) (escapeChar c ++ tail)
      = consResult c (parseStringBody f tail) := by
  by_cases h1 : c = 34
  · exact h1 ▸ psb_quote f tail
  by_cases h2 : c = 92
  · exact h2 ▸ psb_backslash f tail
  by_cases h3 : 32 ≤ c ∧ c ≤ 126
  · exact psb_printable c f tail h1 h2 h3
  by_cases h4 : c = 8
  · exact h4 ▸ psb_bs8 f tail
  by_cases h5 : c = 9
  · exact h5 ▸ psb_tab f tail
  by_cases h6 : c = 10
  · exact h6 ▸ psb_nl f tail
  by_cases h7 : c = 12
  · exact h7 ▸ psb_ff f tail
  by_cases h8 : c = 13
  · exact h8 ▸ psb_cr f tail
  by_cases h9 : c < 65536
  · have hns : ¬(55296 ≤ c ∧ c ≤ 56319) := by
      rcases hvc with ⟨_, hsur⟩
      omega
    exact psb_bmp c f tail h1 h2 h3 h4 h5 h6 h7 h8 h9 hns
  · exact psb_astral c f tail h1 h2 h3 h4 h5 h6 h7 h8 h9 hvc.1

theorem parseStringBody_escape :
    ∀ (s : List Nat) (fuel : Nat) (rest : List Nat), ValidStr s →
      s.length < fuel →
      parseStringBody fuel (escapeStr s ++ (34 :: rest)) = some (s, rest)
  | [], fuel, rest => fun _ hf => by
    cases fuel with
    | zero => omega
    | succ f => simp [escapeStr, parseStringBody]
  | c :: cs, fuel, rest => fun hv hf => by
    cases fuel with
    | zero => omega
    | succ f =>
      have hvc : validCp c := hv c (by simp)
      have hvcs : ValidStr cs := fun x hx => hv x (by simp [hx])
      have hfc : cs.length < f := by
        simp only [List.length_cons] at hf
        omega
      have ih := parseStringBody_escape cs f rest hvcs hfc
      have step := parseStringBody_escapeChar c f (escapeStr cs ++ (34 :: rest)) hvc
      simp only [escapeStr, List.append_assoc]
      rw [step, ih]
      rfl

theorem skipWs_no_ws (c : Nat) (l : List Nat)
    (h : ¬(c = 32 ∨ c = 9 ∨ c = 10 ∨ c = 13)) : skipWs (c :: l) = c :: l := by
  simp only [skipWs, if_neg h]

theorem skipWs_space (l : List Nat) : skipWs (32 :: l) = skipWs l := by
  simp [skipWs]

theorem dumps_head :
    ∀ j : Json, ∃ t, dumps j = 34 :: t ∨ dumps j = 123 :: t
  | .str s => ⟨escapeStr s ++ [34], Or.inl rfl⟩
  | .obj .nil => ⟨[125], Or.inr rfl⟩
  | .obj (.cons _ _ _) => ⟨_, Or.inr rfl⟩

theorem skipWs_dumps (j : Json) (rest : List Nat) :
    skipWs (dumps j ++ rest) = dumps j ++ rest := by
  rcases dumps_head j with ⟨t, h | h⟩ <;> rw [h]
  · simp only [List.cons_append]
    exact skipWs_no_ws 34 _ (by omega)
  · simp only [List.cons_append]
    exact skipWs_no_ws 123 _ (by omega)

theorem sizeJ_pos : ∀ j : Json, 1 ≤ sizeJ j
  | .str _ => le_refl 1
  | .obj fs => by simp [sizeJ]

theorem sizeF_pos : ∀ fs : Fields, 1 ≤ sizeF fs
  | .nil => le_refl 1
  | .cons _ v fs => by
    simp only [sizeF]
    omega

theorem parseVal_ws (fuel : Nat) (input : List Nat) :
    parseVal fuel (32 :: input) = parseVal fuel input := by
  cases fuel with
  | zero => rfl
  | succ f => simp only [parseVal, skipWs_space]

theorem parseEntry_ws (fuel : Nat) (input : List Nat) :
    parseEntry fuel (32 :: input) = parseEntry fuel input := by
  cases fuel with
  | zero => rfl
  | succ f => simp only [parseEntry, skipWs_space]

theorem parseVal_str (f : Nat) (s : List Nat) (rest : List Nat)
    (hv : ValidStr s) :
    parseVal (f + 1) (dumps (.str s) ++ rest) = some (.str s, rest) := by
  have hlen : s.length < (escapeStr s).length + (rest.length + 1) + 1 := by
    have := escapeStr_len s
    omega
  have hsb := parseStringBody_escape s
    ((escapeStr s).length + (rest.length + 1) + 1) rest hv hlen
  simp only [dumps, dumpStr, List.cons_append, List.append_assoc,
    List.singleton_append]
  simp only [parseVal]
  rw [skipWs_no_ws 34 _ (by omega)]
  simp [hsb]

theorem parseVal_objnil (f : Nat) (rest : List Nat) :
    parseVal (f + 1) (dumps (.obj .nil) ++ rest) = some (.obj .nil, rest) := by
  simp only [dumps, List.cons_append, List.nil_append]
  simp only [parseVal]
  rw [skipWs_no_ws 123 _ (by omega)]
  simp only []
  rw [skipWs_no_ws 125 _ (by omega)]
  simp

theorem parseVal_objcons (f : Nat) (k : List Nat) (v : Json) (fs : Fields)
    (rest : List Nat)
    (HE : parseEntry f (dumpStr k ++ ((58 :: 32 :: dumps v)
        ++ (dumpTail fs ++ (125 :: rest))))
      = some (k, v, dumpTail fs ++ (125 :: rest)))
    (HT : parseTail f (dumpTail fs ++ (125 :: rest)) = some (fs, rest)) :
    parseVal (f + 1) (dumps (.obj (.cons k v fs)) ++ rest)
      = some (.obj (.cons k v fs), rest) := by
  simp only [dumps, dumpStr, List.cons_append, List.append_assoc,
    List.singleton_append]
  simp only [parseVal]
  rw [skipWs_no_ws 123 _ (by omega)]
  simp only [List.cons_append]
  rw [skipWs_no_ws 34 _ (by omega)]
  simp only [dumpStr, List.cons_append, List.append_assoc, List.nil_append] at HE
  simp [HE, HT]

theorem parseEntry_step (f : Nat) (k : List Nat) (v : Json) (rest : List Nat)
    (hk : ValidStr k)
    (HV : parseVal f (dumps v ++ rest) = some (v, rest)) :
    parseEntry (f + 1) (dumpStr k ++ ((58 :: 32 :: dumps v) ++ rest))
      = some (k, v, rest) := by
  simp only [dumpStr, List.cons_append, List.append_assoc,
    List.singleton_append, List.nil_append]
  simp only [parseEntry]
  rw [skipWs_no_ws 34 _ (by omega)]
  have hsb := parseStringBody_escape k
    ((escapeStr k ++ 34 :: 58 :: 32 :: (dumps v ++ rest)).length + 1)
    (58 :: 32 :: (dumps v ++ rest)) hk
    (by
      have := escapeStr_len k
      simp only [List.length_append, List.length_cons]
      omega)
  simp only [hsb]
  rw [skipWs_no_ws 58 _ (by omega)]
  simp [parseVal_ws, HV]

theorem parseTail_nil (f : Nat) (rest : List Nat) :
    parseTail (f + 1) (dumpTail .nil ++ (125 :: rest)) = some (.nil, rest) := by
  simp only [dumpTail, List.nil_append]
  simp only [parseTail]
  rw [skipWs_no_ws 125 _ (by omega)]
  simp

theorem parseTail_cons (f : Nat) (k : List Nat) (v : Json) (fs : Fields)
    (rest : List Nat)
    (HE : parseEntry f (dumpStr k ++ ((58 :: 32 :: dumps v)
        ++ (dumpTail fs ++ (125 :: rest))))
      = some (k, v, dumpTail fs ++ (125 :: rest)))
    (HT : parseTail f (dumpTail fs ++ (125 :: rest)) = some (fs, rest)) :
    parseTail (f + 1) (dumpTail (.cons k v fs) ++ (125 :: rest))
      = some (.cons k v fs, rest) := by
  simp only [dumpTail, List.cons_append, List.append_assoc]
  simp only [parseTail]
  rw [skipWs_no_ws 44 _ (by omega)]
  simp only [List.cons_append, List.append_assoc] at HE
  simp [parseEntry_ws, HE, HT]

theorem parse_dumps : ∀ fuel : Nat,
    (∀ (j : Json) (rest : List Nat), validJ j → sizeJ j ≤ fuel →
      parseVal fuel (dumps j ++ rest) = some (j, rest))
    ∧ (∀ (k : List Nat) (v : Json) (rest : List Nat), ValidStr k → validJ v →
      sizeJ v + 1 ≤ fuel →
      parseEntry fuel (dumpStr k ++ ((58 :: 32 :: dumps v) ++ rest))
        = some (k, v, rest))
    ∧ (∀ (fs : Fields) (rest : List Nat), validF fs → sizeF fs ≤ fuel →
      parseTail fuel (dumpTail fs ++ (125 :: rest)) = some (fs, rest)) := by
  intro fuel
  induction fuel with
  | zero =>
    refine ⟨fun j _ _ hs => ?_, fun k v _ _ _ hs => ?_, fun fs _ _ hs => ?_⟩
    · have := sizeJ_pos j
      omega
    · omega
    · have := sizeF_pos fs
      omega
  | succ f ih =>
    obtain ⟨ihV, ihE, ihT⟩ := ih
    refine ⟨?_, ?_, ?_⟩
    · intro j rest hv hs
      cases j with
      | str s => exact parseVal_str f s rest hv
      | obj fsj =>
        cases fsj with
        | nil => exact parseVal_objnil f rest
        | cons k v fs =>
          obtain ⟨hk, hvv, hvf⟩ : ValidStr k ∧ validJ v ∧ validF fs := hv
          have hsz : sizeJ v + sizeF fs + 2 ≤ f + 1 := hs
          have h1 : sizeJ v + 1 ≤ f := by
            have := sizeF_pos fs
            omega
          have h2 : sizeF fs ≤ f := by
            have := sizeJ_pos v
            omega
          exact parseVal_objcons f k v fs rest
            (ihE k v (dumpTail fs ++ (125 :: rest)) hk hvv h1)
            (ihT fs rest hvf h2)
    · intro k v rest hk hv hs
      exact parseEntry_step f k v rest hk (ihV v rest hv (by omega))
    · intro fs rest hv hs
      cases fs with
      | nil => exact parseTail_nil f rest
      | cons k v fs2 =>
        obtain ⟨hk, hvv, hvf⟩ : ValidStr k ∧ validJ v ∧ validF fs2 := hv
        have hsz : sizeJ v + sizeF fs2 + 1 ≤ f + 1 := hs
        have h1 : sizeJ v + 1 ≤ f := by
          have := sizeF_pos fs2
          omega
        have h2 : sizeF fs2 ≤ f := by
          have := sizeJ_pos v
          omega
        exact parseTail_cons f k v fs2 rest
          (ihE k v (dumpTail fs2 ++ (125 :: rest)) hk hvv h1)
          (ihT fs2 rest hvf h2)

mutual

theorem sizeJ_le_dumps : ∀ j : Json, sizeJ j ≤ (dumps j).length
  | .str s => by
    simp [dumps, dumpStr, sizeJ]
  | .obj .nil => by
    simp [dumps, sizeJ, sizeF]
  | .obj (.cons k v fs) => by
    have hv := sizeJ_le_dumps v
    have hf := sizeF_le_dumpTail fs
    simp only [dumps, sizeJ, sizeF, dumpStr, List.length_cons,
      List.length_append]
    omega

theorem sizeF_le_dumpTail : ∀ fs : Fields, sizeF fs ≤ (dumpTail fs).length + 1
  | .nil => by simp [dumpTail, sizeF]
  | .cons k v fs => by
    have hv := sizeJ_le_dumps v
    have hf := sizeF_le_dumpTail fs
    simp only [dumpTail, sizeF, dumpStr, List.length_cons, List.length_append]
    omega

end

theorem jsonLoads_dumps (j : Json) (hv : validJ j) :
    jsonLoads (dumps j) = some j := by
  unfold jsonLoads
  have h := (parse_dumps ((dumps j).length + 1)).1 j [] hv
    (by
      have := sizeJ_le_dumps j
      omega)
  rw [List.append_nil] at h
  rw [h]
  simp [skipWs]

theorem hexDig_lt (d : Nat) (h : d < 16) : hexDig d < 256 := by
  unfold hexDig
  split_ifs <;> omega

theorem hex4_lt (v : Nat) : ∀ x ∈ hex4 v, x < 256 := by
  intro x hx
  simp only [hex4, List.mem_cons, List.not_mem_nil, or_false] at hx
  rcases hx with h | h | h | h <;> subst h <;> exact hexDig_lt _ (by omega)

theorem escapeChar_lt (c : Nat) : ∀ x ∈ escapeChar c, x < 256 := by
  intro x hx
  unfold escapeChar at hx
  split_ifs at hx with h1 h2 h3 h4 h5 h6 h7 h8 h9
  · simp at hx
    rcases hx with h | h <;> omega
  · simp at hx
    rcases hx with h | h <;> omega
  · simp at hx
    omega
  · simp at hx
    rcases hx with h | h <;> omega
  · simp at hx
    rcases hx with h | h <;> omega
  · simp at hx
    rcases hx with h | h <;> omega
  · simp at hx
    rcases hx with h | h <;> omega
  · simp at hx
    rcases hx with h | h <;> omega
  · simp only [List.mem_cons] at hx
    rcases hx with h | h | h
    · omega
    · omega
    · exact hex4_lt _ _ h
  · simp only [List.mem_append, List.mem_cons] at hx
    rcases hx with (h | h | h) | (h | h | h)
    · omega
    · omega
    · exact hex4_lt _ _ h
    · omega
    · omega
    · exact hex4_lt _ _ h

theorem escapeStr_lt : ∀ s : List Nat, ∀ x ∈ escapeStr s, x < 256
  | [] => by simp [escapeStr]
  | c :: cs => by
    intro x hx
    simp only [escapeStr, List.mem_append] at hx
    rcases hx with h | h
    · exact escapeChar_lt c x h
    · exact escapeStr_lt cs x h

theorem dumpStr_lt (s : List Nat) : ∀ x ∈ dumpStr s, x < 256 := by
  intro x hx
  rcases List.mem_cons.mp hx with h | hx2
  · omega
  rcases List.mem_append.mp hx2 with h | h
  · exact escapeStr_lt s x h
  · simp at h
    omega

mutual

theorem dumps_lt256 : ∀ j : Json, ∀ x ∈ dumps j, x < 256
  | .str s => fun x hx => dumpStr_lt s x hx
  | .obj .nil => by
    intro x hx
    simp only [dumps, List.mem_cons, List.not_mem_nil, or_false] at hx
    rcases hx with h | h <;> omega
  | .obj (.cons k v fs) => by
    intro x hx
    rcases List.mem_cons.mp hx with h | hx2
    · omega
    rcases List.mem_append.mp hx2 with h3 | h4
    rotate_left
    · simp at h4
      omega
    rcases List.mem_append.mp h3 with h5 | h6
    rotate_left
    · exact dumpTail_lt256 fs x h6
    rcases List.mem_append.mp h5 with h7 | h8
    · exact dumpStr_lt k x h7
    rcases List.mem_cons.mp h8 with h | h9
    · omega
    rcases List.mem_cons.mp h9 with h | h10
    · omega
    exact dumps_lt256 v x h10

theorem dumpTail_lt256 : ∀ fs : Fields, ∀ x ∈ dumpTail fs, x < 256
  | .nil => by simp [dumpTail]
  | .cons k v fs => by
    intro x hx
    rcases List.mem_cons.mp hx with h | hx2
    · omega
    rcases List.mem_cons.mp hx2 with h | hx3
    · omega
    rcases List.mem_append.mp hx3 with h3 | h4
    rotate_left
    · exact dumpTail_lt256 fs x h4
    rcases List.mem_append.mp h3 with h5 | h6
    · exact dumpStr_lt k x h5
    rcases List.mem_cons.mp h6 with h | h7
    · omega
    rcases List.mem_cons.mp h7 with h | h8
    · omega
    exact dumps_lt256 v x h8

end

theorem manifest_claim_valid (manifest_digest docker_reference : PyStr)
    (hmd : ValidStr manifest_digest) (hdr : ValidStr docker_reference) :
    validJ (manifest_claim manifest_digest docker_reference) :=
  ⟨by decide,
   ⟨by decide, show ValidStr atomicSigStr by decide,
    ⟨by decide, ⟨by decide, hmd, trivial⟩,
     ⟨by decide, ⟨by decide, hdr, trivial⟩, trivial⟩⟩⟩,
   ⟨by decide, ⟨by decide, show ValidStr creatorStr by decide, trivial⟩,
    trivial⟩⟩

/-- C8: for every input, base64-decoding and JSON-parsing the claim_file
field of the message built by create_manifest_claim_message recovers a
claim whose critical.image.docker-manifest-digest is the given manifest
digest and whose critical.identity.docker-reference is the given docker
reference, and the message's top-level manifest_digest and
docker_reference fields equal those same arguments — the serialized
payload round-trips to the metadata it describes.  (The two string
arguments are required to consist of valid unicode code points, as
Python str values do.) -/
theorem claim_C8 (task_id destination_repo signature_key manifest_digest
    docker_reference image_name request_id created : PyStr)
    (hmd : ValidStr manifest_digest) (hdr : ValidStr docker_reference) :
    ∃ payload j,
      b64decode ((create_manifest_claim_message task_id destination_repo
          signature_key manifest_digest docker_reference image_name
          request_id created).claim_file) = some payload
      ∧ jsonLoads payload = some j
      ∧ ((jLookup j keyCritical).bind (fun x => jLookup x keyImage)).bind
          (fun x => jLookup x keyDigest) = some (.str manifest_digest)
      ∧ ((jLookup j keyCritical).bind (fun x => jLookup x keyIdentity)).bind
          (fun x => jLookup x keyReference) = some (.str docker_reference)
      ∧ (create_manifest_claim_message task_id destination_repo signature_key
          manifest_digest docker_reference image_name request_id
          created).manifest_digest = manifest_digest
      ∧ (create_manifest_claim_message task_id destination_repo signature_key
          manifest_digest docker_reference image_name request_id
          created).docker_reference = docker_reference := by
  refine ⟨dumps (manifest_claim manifest_digest docker_reference),
    manifest_claim manifest_digest docker_reference, ?_, ?_, rfl, rfl, rfl, rfl⟩
  · exact b64_roundtrip _ (dumps_lt256 _)
  · exact jsonLoads_dumps _
      (manifest_claim_valid manifest_digest docker_reference hmd hdr)

/-- Witness for C8 at concrete inputs: the claim file of a concrete
message round-trips to its digest and reference. -/
theorem claim_C8_witness :
    ∃ payload j,
      b64decode ((create_manifest_claim_message (str2py "1234")
          (str2py "some-namespace/repo") (str2py "key1") (str2py "sha256:a1")
          (str2py "registry.com/namespace/repo:1") (str2py "namespace/repo")
          (str2py "uuid-1") (str2py "2021-01-01T00:00:00Z")).claim_file)
        = some payload
      ∧ jsonLoads payload = some j
      ∧ ((jLookup j keyCritical).bind (fun x => jLookup x keyImage)).bind
          (fun x => jLookup x keyDigest) = some (.str (str2py "sha256:a1"))
      ∧ ((jLookup j keyCritical).bind (fun x => jLookup x keyIdentity)).bind
          (fun x => jLookup x keyReference)
        = some (.str (str2py "registry.com/namespace/repo:1"))
      ∧ (create_manifest_claim_message (str2py "1234")
          (str2py "some-namespace/repo") (str2py "key1") (str2py "sha256:a1")
          (str2py "registry.com/namespace/repo:1") (str2py "namespace/repo")
          (str2py "uuid-1") (str2py "2021-01-01T00:00:00Z")).manifest_digest
        = str2py "sha256:a1"
      ∧ (create_manifest_claim_message (str2py "1234")
          (str2py "some-namespace/repo") (str2py "key1") (str2py "sha256:a1")
          (str2py "registry.com/namespace/repo:1") (str2py "namespace/repo")
          (str2py "uuid-1") (str2py "2021-01-01T00:00:00Z")).docker_reference
        = str2py "registry.com/namespace/repo:1" :=
  claim_C8 (str2py "1234") (str2py "some-namespace/repo") (str2py "key1")
    (str2py "sha256:a1") (str2py "registry.com/namespace/repo:1")
    (str2py "namespace/repo") (str2py "uuid-1")
    (str2py "2021-01-01T00:00:00Z") (by decide) (by decide)
